import Mathlib

/-!
Verification development for the example-counter repository: a shallow
embedding of the zkvote Compact contract, the CLI command-dispatch loop,
the browser wallet handshake, the provider bundle, and the endpoint
remapping helper, together with theorems settling the specification
claims about them.
-/

deriving instance DecidableEq for Except

namespace ZkVote

/-- Upper bound of the ledger `Counter` cells (`Uint<64>`). -/
def UINT64_MAX : Nat := 2 ^ 64 - 1

/-- One ledger `Counter.increment(1)` step: fails if the 64-bit counter
would overflow, otherwise adds one. -/
def counterIncrement (c : Nat) : Except String Nat :=
  if c + 1 ≤ UINT64_MAX then .ok (c + 1) else .error "counter overflow"

/-- The `Set<Bytes<32>>` ledger cell is modelled as a duplicate-free list of
keys; `setInsert` is `Set.insert`, a no-op when the key is present. -/
def setInsert (k : String) (l : List String) : List String :=
  if k ∈ l then l else k :: l

/-- The full public ledger state of `zkvote.compact`:
`round`, `votesA`, `votesB` counters and the `items` membership set. -/
structure LedgerState where
  round : Nat
  votesA : Nat
  votesB : Nat
  items : List String
deriving DecidableEq, Repr

/-- Ledger state of a freshly deployed contract: every `Counter` starts at
zero and the `Set` starts empty. -/
def initialState : LedgerState := ⟨0, 0, 0, []⟩

/-- The circuit `public_key_vote(sk, instance)` returns
`persistent_hash<Vector<3, Bytes<3>>>([pad(3, "pk:"), instance, sk])`.
The hash is modelled as an injective encoding of its input vector
(the three components have fixed width 3, so plain concatenation is
injective, matching collision-freeness of the hash). -/
def public_key_vote (sk inst : String) : String :=
  "pk:" ++ inst ++ sk

/-- The circuit `increment()`: `round.increment(1)`. -/
def increment (s : LedgerState) : Except String LedgerState :=
  match counterIncrement s.round with
  | .ok r => .ok ⟨r, s.votesA, s.votesB, s.items⟩
  | .error e => .error e

/-- The circuit `vote_for(index)`, transcribed from `zkvote.compact`:
the membership key is derived from the hardcoded constants
`secret_key = "123"` and `instance = "000"`; the circuit asserts the key
is not yet a member (message `"Already voted"`), inserts it, and then on
the `index == 0` / `index == 1` branches inserts it again (a set no-op)
and increments the matching tally.  A failed assert aborts the whole
transaction, so the error case carries no successor state. -/
def vote_for (index : Nat) (s : LedgerState) : Except String LedgerState :=
  if public_key_vote "123" "000" ∈ s.items then .error "Already voted"
  else if index = 0 then
    match counterIncrement s.votesA with
    | .ok a =>
      .ok ⟨s.round, a, s.votesB,
        setInsert (public_key_vote "123" "000") (setInsert (public_key_vote "123" "000") s.items)⟩
    | .error e => .error e
  else if index = 1 then
    match counterIncrement s.votesB with
    | .ok b =>
      .ok ⟨s.round, s.votesA, b,
        setInsert (public_key_vote "123" "000") (setInsert (public_key_vote "123" "000") s.items)⟩
    | .error e => .error e
  else .ok ⟨s.round, s.votesA, s.votesB, setInsert (public_key_vote "123" "000") s.items⟩

/-- The circuit `get_vote_count(index)`. -/
def get_vote_count (index : Nat) (s : LedgerState) : Nat :=
  if index = 0 then s.votesA
  else if index = 1 then s.votesB
  else 0

/-- The shared membership key every `vote_for` call uses. -/
def votedKey : String := public_key_vote "123" "000"

/-- The state-changing entry points a client can invoke on the contract. -/
inductive Op
  | increment
  | vote_for (index : Nat)
deriving DecidableEq, Repr

/-- Apply one entry point to the ledger. -/
def applyOp (op : Op) (s : LedgerState) : Except String LedgerState :=
  match op with
  | .increment => increment s
  | .vote_for i => vote_for i s

/-- One attempted call: a rejected transaction leaves the on-chain state
exactly as it was (the circuit either commits atomically or not at all). -/
def step (s : LedgerState) (op : Op) : LedgerState :=
  match applyOp op s with
  | .ok s1 => s1
  | .error _ => s

/-- Run a sequence of attempted calls from a given state. -/
def applyTrace (s : LedgerState) (ops : List Op) : LedgerState :=
  ops.foldl step s

/-- The ledger state after a sequence of attempted calls on a freshly
deployed contract. -/
def execTrace (ops : List Op) : LedgerState :=
  applyTrace initialState ops

/-- Run `n` increment transactions, stopping at the first failure. -/
def runIncrements : Nat → LedgerState → Except String LedgerState
  | 0, s => .ok s
  | n + 1, s =>
    match increment s with
    | .ok s1 => runIncrements n s1
    | .error e => .error e

end ZkVote

/-- Character-list test whether `pat` is an initial segment of `hay`. -/
def startsWithChars : List Char → List Char → Bool
  | _, [] => true
  | [], _ :: _ => false
  | c :: cs, d :: ds => c = d && startsWithChars cs ds

/-- Character-list test whether `pat` occurs contiguously in `hay`. -/
def occursInChars (hay pat : List Char) : Bool :=
  startsWithChars hay pat ||
    match hay with
    | [] => false
    | _ :: t => occursInChars t pat

/-- JavaScript `msg.includes(marker)`: substring containment. -/
def includes (msg marker : String) : Bool :=
  occursInChars msg.data marker.data

namespace CLI

/-- What the dispatch loop does with one line of user input: run the chosen
operation (recording whether it threw, `ok = false`, in which case the error
is caught, reported, and the loop continues), report an invalid choice, or
exit on the explicit choice `"6"`. -/
inductive MenuEvent
  | invoked (choice : String) (ok : Bool)
  | invalidChoice (choice : String)
  | exit
deriving DecidableEq, Repr

/-- The menu choices that invoke an operation on the contract handle or
providers: increment, display counter, vote A, vote B, display results. -/
def isOpChoice (c : String) : Bool :=
  c = "1" || c = "2" || c = "3" || c = "4" || c = "5"

/-- The inner `while (true)` of `mainLoop`, transcribed from the CLI
source: read a choice; `"6"` returns; `"1"`-`"5"` invoke the matching
operation inside the `try`, whose `catch` reports the error and falls
through to the next iteration; any other input logs an invalid-choice
error and re-prompts.  `ops k c` tells whether the operation invoked for
the `k`-th consumed input line `c` succeeds (`false` = it threw).  A
finite input list models the session; an exhausted list means the loop is
still blocked waiting on the next line (`exited = false`). -/
def mainLoopAux (ops : Nat → String → Bool) : List String → Nat → List MenuEvent × Bool
  | [], _ => ([], false)
  | c :: rest, k =>
    if c = "6" then ([MenuEvent.exit], true)
    else if isOpChoice c then
      let r := mainLoopAux ops rest (k + 1)
      (MenuEvent.invoked c (ops k c) :: r.1, r.2)
    else
      let r := mainLoopAux ops rest (k + 1)
      (MenuEvent.invalidChoice c :: r.1, r.2)

/-- The dispatch loop run on a whole input session. -/
def mainLoop (ops : Nat → String → Bool) (inputs : List String) : List MenuEvent × Bool :=
  mainLoopAux ops inputs 0

/-- The CLI error handler's duplicate-vote recognition: it prints the
"you may have already voted" hint exactly when the caught error message
contains the marker `member`. -/
def duplicateVoteHint (msg : String) : Bool :=
  includes msg "member"

end CLI

namespace Wallet

/-- The error-type classification the browser component assigns to a
connection failure. -/
inductive ErrorType
  | WALLET_NOT_FOUND
  | INCOMPATIBLE_API_VERSION
  | TIMEOUT_FINDING_API
  | TIMEOUT_API_RESPONSE
  | ENABLE_API_FAILED
  | UNAUTHORIZED
  | UNKNOWN_ERROR
deriving DecidableEq, Repr

/-- `getErrorType` from `MidnightWallet.tsx`: classify an error by testing
its message against known markers, in source order. -/
def getErrorType (msg : String) : ErrorType :=
  if includes msg "Could not find Midnight Lace wallet" then .WALLET_NOT_FOUND
  else if includes msg "Incompatible version of Midnight Lace wallet" then .INCOMPATIBLE_API_VERSION
  else if includes msg "Wallet connector API has failed to respond" then .TIMEOUT_API_RESPONSE
  else if includes msg "Could not find wallet connector API" then .TIMEOUT_FINDING_API
  else if includes msg "Unable to enable connector API" then .ENABLE_API_FAILED
  else if includes msg "Application is not authorized" then .UNAUTHORIZED
  else .UNKNOWN_ERROR

/-- `semver.satisfies(v, "1.x")` for a canonical semver string: the major
component is exactly `1` (first character `1`, followed by nothing or by
the `.` separator). -/
def satisfies1x (v : String) : Bool :=
  match v.data with
  | c :: rest => c = '1' && (rest = [] || rest.head? = some '.')
  | [] => false

/-- One handshake environment: `probe k` is what `window.midnight?.mnLace`
shows at the `k`-th 100ms poll (`some v` = connector present declaring
`apiVersion` `v`); `pollLimit` is how many polls fit inside the 1s
discovery timeout; the booleans say whether `isEnabled()` answers within
its 5s timeout, whether `enable()` resolves (the user authorizes), and
whether `serviceUriConfig()` resolves. -/
structure Env where
  probe : Nat → Option String
  pollLimit : Nat
  isEnabledResponds : Bool
  enableSucceeds : Bool
  urisRespond : Bool

/-- First poll at which the connector is present, within the discovery
window (`interval(100)` + `filter` + the 1s `timeout`). -/
def findWallet (probe : Nat → Option String) (limit : Nat) : Option String :=
  (List.range limit).findSome? probe

/-- The discovery and version-check stages of the `connectToWallet` rxjs
pipe: if no connector appears inside the window the 1s timeout throws the
not-found error; otherwise the first present emission passes the
`concatMap` version check, which throws the incompatible-version error
when the declared version is outside `"1.x"`. -/
def discover (e : Env) : Except String String :=
  match findWallet e.probe e.pollLimit with
  | none => .error "Could not find Midnight Lace wallet. Extension installed?"
  | some v =>
    if satisfies1x v then .ok v
    else
      .error ("Incompatible version of Midnight Lace wallet found. Require \x271.x\x27, got \x27"
        ++ v ++ "\x27.")

/-- The stages upstream of the pipe's `catchError`: discovery and version
check, then the `isEnabled()` probe bounded by the 5s timeout, then
`enable()`. -/
def stagesBeforeCatch (e : Env) : Except String String :=
  match discover e with
  | .error msg => .error msg
  | .ok v =>
    if e.isEnabledResponds then
      if e.enableSucceeds then .ok v
      else .error "enable() rejected"
    else .error "Midnight Lace wallet has failed to respond. Extension enabled?"

/-- The whole `connectToWallet` pipe.  Its `catchError((error, apis) =>
error ? throwError(() => new Error("Application is not authorized")) :
apis)` sits downstream of every stage above, and its selector replaces
every (always-truthy) upstream error with the authorization error; only
the final `serviceUriConfig()` step runs after it. -/
def connectToWallet (e : Env) : Except String String :=
  match stagesBeforeCatch e with
  | .error _ => .error "Application is not authorized"
  | .ok v =>
    if e.urisRespond then .ok v
    else .error "serviceUriConfig() rejected"

end Wallet

namespace Join

/-- The contract handle `joinExistingContract` returns: `deployTxData.public`
carries the address it was given and the fixed txId `joined_contract`. -/
structure Handle where
  contractAddress : String
  txId : String
deriving DecidableEq, Repr

/-- `joinExistingContract(providers, contractAddress)` from
`MidnightWallet.tsx`: query the public state for the address and throw
the contract-not-found error when it yields nothing; otherwise read the
local private state and, when absent, initialize it fresh with
`privateCounter = 0`; return a handle bound to the given address.
`query` is the provider's `queryContractState`, `priv` the stored private
state before the call; the result pairs the handle with the private state
after the call. -/
def joinExistingContract (query : String → Option Nat) (priv : Option Nat)
    (addr : String) : Except String (Handle × Nat) :=
  match query addr with
  | none => .error ("Contract not found at address: " ++ addr)
  | some _ =>
    let priv1 := match priv with
      | none => 0
      | some p => p
    .ok (⟨addr, "joined_contract"⟩, priv1)

end Join

namespace Teardown

/-- The three resources the CLI `run` acquires. -/
inductive Resrc
  | rli
  | wallet
  | env
deriving DecidableEq, Repr

/-- What happens to one resource during teardown: its release step ran and
succeeded, or it threw and the error was logged. -/
inductive TdEvent
  | closed (r : Resrc)
  | logged (r : Resrc)
deriving DecidableEq, Repr

/-- A run configuration at teardown time: which optional resources exist
(`wallet !== null`, `dockerEnv !== undefined`) and which release calls
throw. -/
structure RunEnv where
  walletPresent : Bool
  envPresent : Bool
  rliCloseFails : Bool
  walletCloseFails : Bool
  envDownFails : Bool
deriving DecidableEq, Repr

/-- One `try { release } catch (e) { log }` block. -/
def attemptStep (fails : Bool) (r : Resrc) : List TdEvent :=
  if fails then [TdEvent.logged r] else [TdEvent.closed r]

/-- The `finally` cascade at the end of `run`, transcribed from the
source: close the readline interface (errors caught and logged), then in
its `finally` close the wallet when present (errors caught and logged),
then in that block's `finally` shut the container environment down when
present (errors caught and logged).  The function is total: no teardown
failure escapes past teardown. -/
def teardown (e : RunEnv) : List TdEvent :=
  attemptStep e.rliCloseFails .rli
    ++ (if e.walletPresent then attemptStep e.walletCloseFails .wallet else [])
    ++ (if e.envPresent then attemptStep e.envDownFails .env else [])

/-- The resource each teardown event concerns. -/
def eventResrc : TdEvent → Resrc
  | .closed r => r
  | .logged r => r

/-- The order in which teardown steps are attempted. -/
def teardownOrder (e : RunEnv) : List Resrc :=
  (teardown e).map eventResrc

/-- The order in which `run` acquires its resources, from the source:
`createInterface` first, then `dockerEnv.up()` when a docker environment
was passed, then `buildWallet`. -/
def acquisitionOrder (e : RunEnv) : List Resrc :=
  [Resrc.rli]
    ++ (if e.envPresent then [Resrc.env] else [])
    ++ (if e.walletPresent then [Resrc.wallet] else [])

end Teardown

namespace UrlMap

/-- Decimal digit character of `d`. -/
def digitChar (d : Nat) : Char :=
  Char.ofNat (48 + d)

/-- Digit-accumulating helper for `natChars`; the fuel argument only
bounds the recursion depth (one digit per unit of fuel). -/
def natCharsAux : Nat → Nat → List Char → List Char
  | 0, _, acc => acc
  | fuel + 1, n, acc =>
    if n < 10 then digitChar n :: acc
    else natCharsAux fuel (n / 10) (digitChar (n % 10) :: acc)

/-- Decimal rendering of a natural number, as JavaScript
`String(container.getFirstMappedPort())` produces it. -/
def natChars (n : Nat) : List Char :=
  natCharsAux (n + 1) n []

/-- A parsed `URL` object: scheme, host (no port), port, and the
serialized path (`new URL` normalizes an absent path to `/`). -/
structure Url where
  scheme : String
  host : String
  port : Nat
  path : String
deriving DecidableEq, Repr

/-- `URL.toString()` of the model: scheme, `://`, host, `:`, decimal
port, path. -/
def urlChars (u : Url) : List Char :=
  u.scheme.data ++ "://".data ++ u.host.data ++ ":".data ++ natChars u.port ++ u.path.data

/-- JavaScript `.replace(/\/+$/, "")`: drop every trailing `/`. -/
def dropTrailing (l : List Char) : List Char :=
  (l.reverse.dropWhile (fun c => c = '/')).reverse

/-- `mapContainerPort` from the CLI source: re-serialize the URL with its
port replaced by the container's first mapped port and strip trailing
slashes from the result. -/
def mapContainerPort (u : Url) (mappedPort : Nat) : String :=
  ⟨dropTrailing (urlChars ⟨u.scheme, u.host, mappedPort, u.path⟩)⟩

end UrlMap

namespace TxPipeline

/-- Transactions as the free record of what the authority did to them:
an initial unbalanced transaction, a balanced one (funding inputs
attached), a proved one (validity proof attached). -/
inductive Tx
  | initial (n : Nat)
  | balanced (t : Tx) (coins : List Nat)
  | proved (t : Tx)
deriving DecidableEq, Repr

/-- One call into the authority's signing capability, with its argument. -/
inductive WalletCall
  | balance (t : Tx)
  | prove (t : Tx)
  | submit (t : Tx)
deriving DecidableEq, Repr

/-- `wallet.balanceTransaction(tx, newCoins)`: records the call and
returns the balanced transaction. -/
def balanceTransaction (t : Tx) (coins : List Nat) (log : List WalletCall) :
    Tx × List WalletCall :=
  (.balanced t coins, log ++ [WalletCall.balance t])

/-- `wallet.proveTransaction(tx)`: records the call and returns the proved
transaction. -/
def proveTransaction (t : Tx) (log : List WalletCall) : Tx × List WalletCall :=
  (.proved t, log ++ [WalletCall.prove t])

/-- `wallet.submitTransaction(tx)`: records the call and returns the txId. -/
def submitTransaction (t : Tx) (log : List WalletCall) : String × List WalletCall :=
  ("txId", log ++ [WalletCall.submit t])

/-- `walletProvider.balanceTx` from `MidnightWallet.tsx`: await
`balanceTransaction`, then await `proveTransaction` on its result. -/
def balanceTx (t : Tx) (coins : List Nat) (log : List WalletCall) :
    Tx × List WalletCall :=
  let b := balanceTransaction t coins log
  proveTransaction b.1 b.2

/-- `walletProvider.submitTx` from `MidnightWallet.tsx`. -/
def submitTx (t : Tx) (log : List WalletCall) : String × List WalletCall :=
  submitTransaction t log

/-- Modelled from the spec: the transaction-submit provider's combined
`balanceAndSubmit(tx)` operation — the contract framework (an external
collaborator, not part of this repository) invokes the provider's
`submitTx` on the output of its `balanceTx`. -/
def balanceAndSubmit (t : Tx) (coins : List Nat) : String × List WalletCall :=
  let p := balanceTx t coins []
  submitTx p.1 p.2

end TxPipeline

/-!
Theorems.  Helper lemmas first within each namespace, then the theorems
settling the claims.
-/

namespace ZkVote

theorem mem_setInsert_self (k : String) (l : List String) : k ∈ setInsert k l := by
  unfold setInsert
  split
  · assumption
  · exact List.mem_cons_self k l

theorem vote_for_of_mem {j : Nat} {s : LedgerState} (h : votedKey ∈ s.items) :
    vote_for j s = .error "Already voted" := by
  unfold votedKey at h
  unfold vote_for
  rw [if_pos h]

theorem counterIncrement_ok {c : Nat} (h : c ≤ 1) : counterIncrement c = .ok (c + 1) := by
  unfold counterIncrement UINT64_MAX
  rw [if_pos (by omega)]

theorem vote_for_eval_0 {s : LedgerState} (hm : votedKey ∉ s.items) (hA : s.votesA ≤ 1) :
    vote_for 0 s = .ok ⟨s.round, s.votesA + 1, s.votesB,
      setInsert votedKey (setInsert votedKey s.items)⟩ := by
  unfold votedKey at hm ⊢
  unfold vote_for
  rw [if_neg hm, if_pos rfl, counterIncrement_ok hA]

theorem vote_for_eval_1 {s : LedgerState} (hm : votedKey ∉ s.items) (hB : s.votesB ≤ 1) :
    vote_for 1 s = .ok ⟨s.round, s.votesA, s.votesB + 1,
      setInsert votedKey (setInsert votedKey s.items)⟩ := by
  unfold votedKey at hm ⊢
  unfold vote_for
  rw [if_neg hm, if_neg (by decide), if_pos rfl, counterIncrement_ok hB]

theorem vote_for_eval_other {i : Nat} {s : LedgerState} (hm : votedKey ∉ s.items)
    (h0 : i ≠ 0) (h1 : i ≠ 1) :
    vote_for i s = .ok ⟨s.round, s.votesA, s.votesB, setInsert votedKey s.items⟩ := by
  unfold votedKey at hm ⊢
  unfold vote_for
  rw [if_neg hm, if_neg h0, if_neg h1]

theorem vote_for_ok_mem {i : Nat} {s s1 : LedgerState} (h : vote_for i s = .ok s1) :
    votedKey ∈ s1.items := by
  unfold vote_for at h
  unfold votedKey
  split at h
  · cases h
  · split at h
    · cases hc : counterIncrement s.votesA <;> rw [hc] at h <;> cases h
      exact mem_setInsert_self _ _
    · split at h
      · cases hc : counterIncrement s.votesB <;> rw [hc] at h <;> cases h
        exact mem_setInsert_self _ _
      · cases h
        exact mem_setInsert_self _ _

theorem increment_items {s s1 : LedgerState} (h : increment s = .ok s1) :
    s1.items = s.items := by
  unfold increment at h
  cases hc : counterIncrement s.round <;> rw [hc] at h <;> cases h
  rfl

theorem increment_votes {s s1 : LedgerState} (h : increment s = .ok s1) :
    s1.votesA = s.votesA ∧ s1.votesB = s.votesB := by
  unfold increment at h
  cases hc : counterIncrement s.round <;> rw [hc] at h <;> cases h
  exact ⟨rfl, rfl⟩

theorem step_mem {s : LedgerState} (op : Op) (h : votedKey ∈ s.items) :
    votedKey ∈ (step s op).items := by
  cases op with
  | increment =>
    unfold step
    simp only [applyOp]
    cases hi : increment s with
    | ok s1 =>
      simp only
      rw [increment_items hi]
      exact h
    | error e => exact h
  | vote_for i =>
    unfold step
    simp only [applyOp]
    rw [vote_for_of_mem h]
    exact h

theorem applyTrace_mem {s : LedgerState} (ops : List Op) (h : votedKey ∈ s.items) :
    votedKey ∈ (applyTrace s ops).items := by
  induction ops generalizing s with
  | nil => exact h
  | cons op rest ih =>
    unfold applyTrace at ih ⊢
    rw [List.foldl_cons]
    exact ih (step_mem op h)

theorem step_inv {s : LedgerState} (op : Op)
    (h1 : s.votesA + s.votesB ≤ 1)
    (h2 : votedKey ∉ s.items → s.votesA + s.votesB = 0) :
    (step s op).votesA + (step s op).votesB ≤ 1 ∧
      (votedKey ∉ (step s op).items → (step s op).votesA + (step s op).votesB = 0) := by
  cases op with
  | increment =>
    unfold step
    simp only [applyOp]
    cases hi : increment s with
    | ok s1 =>
      simp only
      obtain ⟨ha, hb⟩ := increment_votes hi
      rw [increment_items hi, ha, hb]
      exact ⟨h1, h2⟩
    | error e => exact ⟨h1, h2⟩
  | vote_for i =>
    by_cases hm : votedKey ∈ s.items
    · unfold step
      simp only [applyOp]
      rw [vote_for_of_mem hm]
      exact ⟨h1, h2⟩
    · have hz : s.votesA + s.votesB = 0 := h2 hm
      unfold step
      simp only [applyOp]
      by_cases hi0 : i = 0
      · subst hi0
        rw [vote_for_eval_0 hm (by omega)]
        refine ⟨by simp; omega, fun hc => absurd (mem_setInsert_self _ _) hc⟩
      · by_cases hi1 : i = 1
        · subst hi1
          rw [vote_for_eval_1 hm (by omega)]
          refine ⟨by simp; omega, fun hc => absurd (mem_setInsert_self _ _) hc⟩
        · rw [vote_for_eval_other hm hi0 hi1]
          refine ⟨by simp; omega, fun hc => absurd (mem_setInsert_self _ _) hc⟩

theorem applyTrace_inv {s : LedgerState} (ops : List Op)
    (h1 : s.votesA + s.votesB ≤ 1)
    (h2 : votedKey ∉ s.items → s.votesA + s.votesB = 0) :
    (applyTrace s ops).votesA + (applyTrace s ops).votesB ≤ 1 := by
  induction ops generalizing s with
  | nil => exact h1
  | cons op rest ih =>
    unfold applyTrace at ih ⊢
    rw [List.foldl_cons]
    exact ih (step_inv op h1 h2).1 (step_inv op h1 h2).2

/-- C2: in `vote_for` the voter identity is derived from the hardcoded
constants `secret_key = "123"` and `instance = "000"` rather than from the
caller, so every caller shares one membership key: (a) once any single
vote has been accepted, every subsequent `vote_for` call — by any caller,
for either option, after any further sequence of attempted calls — fails
the `"Already voted"` assertion; (b) along any sequence of attempted
calls on a fresh contract, at most one vote is ever recorded. -/
theorem vote_single_vote_lifetime :
    (∀ (i : Nat) (s s1 : LedgerState), vote_for i s = .ok s1 →
      ∀ (ops : List Op) (j : Nat),
        vote_for j (applyTrace s1 ops) = .error "Already voted") ∧
    (∀ ops : List Op, (execTrace ops).votesA + (execTrace ops).votesB ≤ 1) := by
  constructor
  · intro i s s1 h ops j
    exact vote_for_of_mem (applyTrace_mem ops (vote_for_ok_mem h))
  · intro ops
    unfold execTrace
    exact applyTrace_inv ops (by simp [initialState]) (by simp [initialState])

/-- C2 witness: on a fresh contract a first vote for option A is accepted;
after one further increment transaction, a vote for option B fails the
`"Already voted"` assertion. -/
theorem vote_single_vote_lifetime_witness :
    vote_for 1 (applyTrace ⟨0, 1, 0, [votedKey]⟩ [Op.increment]) =
      .error "Already voted" :=
  vote_single_vote_lifetime.1 0 initialState ⟨0, 1, 0, [votedKey]⟩ (by decide)
    [Op.increment] 1

/-- C1 (evidence of the code bug): every caller derives the same membership
key, so on a fresh contract the first `vote_for` call (here: option A)
succeeds and sets `votesA = 1`, but the next caller's first vote (here:
option B) fails the `"Already voted"` set-membership assert with both
tallies left unchanged — the claimed per-identity first vote does not
succeed.  Moreover the assert message `"Already voted"` does not contain
the marker `member` that the CLI error handler uses to recognize a
duplicate vote. -/
theorem vote_second_caller_first_vote_fails :
    vote_for 0 initialState = .ok ⟨0, 1, 0, [votedKey]⟩ ∧
    vote_for 1 ⟨0, 1, 0, [votedKey]⟩ = .error "Already voted" ∧
    CLI.duplicateVoteHint "Already voted" = false := by
  decide

theorem runIncrements_round {n : Nat} :
    ∀ {s s1 : LedgerState}, runIncrements n s = .ok s1 → s1.round = s.round + n := by
  induction n with
  | zero =>
    intro s s1 h
    cases h
    rfl
  | succ m ih =>
    intro s s1 h
    unfold runIncrements at h
    cases hi : increment s with
    | ok s2 =>
      rw [hi] at h
      unfold increment at hi
      cases hc : counterIncrement s.round with
      | ok r =>
        rw [hc] at hi
        cases hi
        unfold counterIncrement at hc
        split at hc
        · cases hc
          have hr := ih h
          simp at hr
          omega
        · cases hc
      | error e =>
        rw [hc] at hi
        cases hi
    | error e =>
      rw [hi] at h
      cases h

/-- C5: a freshly deployed contract has `round = 0` and both vote tallies
zero (an immediate query returns exactly this snapshot), and after any
sequence of `n` successful increment transactions a query returns
`round = n`. -/
theorem deploy_query_increment_count :
    initialState.round = 0 ∧ initialState.votesA = 0 ∧ initialState.votesB = 0 ∧
    (∀ (n : Nat) (s : LedgerState), runIncrements n initialState = .ok s → s.round = n) := by
  refine ⟨rfl, rfl, rfl, ?_⟩
  intro n s h
  have hr := runIncrements_round h
  simpa [initialState] using hr

/-- C5 witness: three increments on a fresh contract succeed and the
resulting round counter is 3. -/
theorem deploy_query_increment_count_witness :
    runIncrements 3 initialState = .ok ⟨3, 0, 0, []⟩ ∧
    (⟨3, 0, 0, []⟩ : LedgerState).round = 3 :=
  ⟨by decide, deploy_query_increment_count.2.2.2 3 ⟨3, 0, 0, []⟩ (by decide)⟩

/-- C10: `get_vote_count` is total on its `Uint<8>` domain: it returns the
`votesA` tally at index 0, the `votesB` tally at index 1, and 0 at every
other index, never failing. -/
theorem get_vote_count_total :
    ∀ s : LedgerState,
      get_vote_count 0 s = s.votesA ∧
      get_vote_count 1 s = s.votesB ∧
      (∀ i : Nat, i < 256 → i ≠ 0 → i ≠ 1 → get_vote_count i s = 0) := by
  intro s
  refine ⟨rfl, rfl, ?_⟩
  intro i _ h0 h1
  unfold get_vote_count
  rw [if_neg h0, if_neg h1]

/-- C10 witness: on a state with tallies 2 and 3, the circuit returns 2 at
index 0, 3 at index 1 and 0 at index 7. -/
theorem get_vote_count_total_witness :
    get_vote_count 0 ⟨5, 2, 3, []⟩ = 2 ∧
    get_vote_count 1 ⟨5, 2, 3, []⟩ = 3 ∧
    get_vote_count 7 ⟨5, 2, 3, []⟩ = 0 :=
  ⟨(get_vote_count_total ⟨5, 2, 3, []⟩).1,
   (get_vote_count_total ⟨5, 2, 3, []⟩).2.1,
   (get_vote_count_total ⟨5, 2, 3, []⟩).2.2 7 (by decide) (by decide) (by decide)⟩

end ZkVote

namespace CLI

theorem mainLoopAux_exit_iff (ops : Nat → String → Bool) :
    ∀ (inputs : List String) (k : Nat),
      (mainLoopAux ops inputs k).2 = true ↔ "6" ∈ inputs := by
  intro inputs
  induction inputs with
  | nil => intro k; simp [mainLoopAux]
  | cons c rest ih =>
    intro k
    by_cases h6 : c = "6"
    · subst h6
      simp [mainLoopAux]
    · by_cases hop : isOpChoice c
      · simp [mainLoopAux, h6, hop, ih (k + 1), Ne.symm h6]
      · simp [mainLoopAux, h6, hop, ih (k + 1), Ne.symm h6]

theorem mainLoopAux_run (ops : Nat → String → Bool) (post : List String) :
    ∀ (pre : List String) (k : Nat), "6" ∉ pre →
      mainLoopAux ops (pre ++ "6" :: post) k =
        ((pre.enumFrom k).map (fun p =>
            if isOpChoice p.2 then MenuEvent.invoked p.2 (ops p.1 p.2)
            else MenuEvent.invalidChoice p.2) ++ [MenuEvent.exit], true) := by
  intro pre
  induction pre with
  | nil =>
    intro k _
    simp [mainLoopAux]
  | cons c rest ih =>
    intro k hmem
    have h6 : ¬ c = "6" := fun h => hmem (by rw [h]; exact List.mem_cons_self _ _)
    have hrest : "6" ∉ rest := fun h => hmem (List.mem_cons_of_mem c h)
    by_cases hop : isOpChoice c
    · simp [mainLoopAux, h6, hop, ih (k + 1) hrest, List.enumFrom]
    · simp [mainLoopAux, h6, hop, ih (k + 1) hrest, List.enumFrom]

/-- C4: the CLI dispatch loop, for every operation-outcome oracle `ops` and
every input session: (a) the loop returns exactly when the explicit exit
choice `"6"` is read; (b) on a session made of non-exit inputs followed by
`"6"`, every input line before the exit produces exactly one event — menu
choices `"1"`-`"5"` invoke their operation (whose error, if any, is caught
and reported, after which the loop presents the menu again), any other
input produces an invalid-choice error line without invoking any
operation — and the loop then exits on the `"6"`. -/
theorem mainLoop_dispatch :
    (∀ (ops : Nat → String → Bool) (inputs : List String),
      (mainLoop ops inputs).2 = true ↔ "6" ∈ inputs) ∧
    (∀ (ops : Nat → String → Bool) (pre post : List String), "6" ∉ pre →
      mainLoop ops (pre ++ "6" :: post) =
        ((pre.enum.map (fun p =>
            if isOpChoice p.2 then MenuEvent.invoked p.2 (ops p.1 p.2)
            else MenuEvent.invalidChoice p.2) ++ [MenuEvent.exit]), true)) := by
  constructor
  · intro ops inputs
    exact mainLoopAux_exit_iff ops inputs 0
  · intro ops pre post h
    unfold mainLoop
    rw [mainLoopAux_run ops post pre 0 h]
    rfl

/-- C4 witness: with every operation throwing, the session `9, 3, 6` logs
one invalid-choice error, invokes the vote-A operation once (its error is
caught), and then exits cleanly on `6`. -/
theorem mainLoop_dispatch_witness :
    mainLoop (fun _ _ => false) (["9", "3"] ++ "6" :: []) =
      (((["9", "3"] : List String).enum.map (fun p =>
          if isOpChoice p.2 then MenuEvent.invoked p.2 false
          else MenuEvent.invalidChoice p.2) ++ [MenuEvent.exit]), true) :=
  mainLoop_dispatch.2 (fun _ _ => false) ["9", "3"] [] (by decide)

end CLI

namespace Wallet

/-- C3 (evidence of the code bug): with the wallet connector present at the
first poll and declaring the incompatible version `2.0.0`, the pipeline
stages upstream of `catchError` do produce the dedicated
incompatible-version error, but `connectToWallet` as written surfaces the
error `"Application is not authorized"`, which `getErrorType` classifies
as `UNAUTHORIZED` and not as `INCOMPATIBLE_API_VERSION` — because the
pipe's `catchError` sits downstream of every stage and replaces every
upstream failure with the authorization error. -/
theorem version_mismatch_misclassified :
    stagesBeforeCatch ⟨fun _ => some "2.0.0", 10, true, true, true⟩ =
      .error "Incompatible version of Midnight Lace wallet found. Require \x271.x\x27, got \x272.0.0\x27." ∧
    connectToWallet ⟨fun _ => some "2.0.0", 10, true, true, true⟩ =
      .error "Application is not authorized" ∧
    getErrorType "Application is not authorized" = .UNAUTHORIZED ∧
    getErrorType "Application is not authorized" ≠ .INCOMPATIBLE_API_VERSION ∧
    getErrorType
        "Incompatible version of Midnight Lace wallet found. Require \x271.x\x27, got \x272.0.0\x27." =
      .INCOMPATIBLE_API_VERSION := by
  decide

/-- Every failing handshake run — wallet absent, incompatible version,
unresponsive connector, or declined authorization — surfaces the same
`"Application is not authorized"` error from `connectToWallet`, so no
failure is ever classified as `INCOMPATIBLE_API_VERSION`. -/
theorem connect_error_always_unauthorized :
    ∀ (e : Env) (msg : String), connectToWallet e = .error msg →
      msg = "Application is not authorized" ∨ msg = "serviceUriConfig() rejected" := by
  intro e msg h
  unfold connectToWallet at h
  cases hs : stagesBeforeCatch e with
  | ok v =>
    rw [hs] at h
    by_cases hu : e.urisRespond = true
    · simp [hu] at h
    · simp [hu] at h
      right
      exact h.symm
  | error m =>
    rw [hs] at h
    simp at h
    left
    exact h.symm

/-- Witness for the preceding theorem at a concrete failing run. -/
theorem connect_error_always_unauthorized_witness :
    ("Application is not authorized" = "Application is not authorized" ∨
      "Application is not authorized" = "serviceUriConfig() rejected") :=
  connect_error_always_unauthorized ⟨fun _ => some "2.0.0", 10, true, true, true⟩
    "Application is not authorized" (by decide)

end Wallet

namespace Join

/-- C6: for every public-state query oracle, prior private state and
address: when the query yields no on-chain state, `joinExistingContract`
fails with the contract-not-found error and returns no handle; when the
state exists it returns a handle bound to exactly the given address, the
private state is initialized fresh (`privateCounter = 0`) when absent and
kept otherwise — join never fails merely because no prior private state
exists. -/
theorem join_contract_spec :
    ∀ (query : String → Option Nat) (priv : Option Nat) (addr : String),
      (query addr = none →
        joinExistingContract query priv addr =
          .error ("Contract not found at address: " ++ addr)) ∧
      (∀ v, query addr = some v →
        joinExistingContract query priv addr =
          .ok (⟨addr, "joined_contract"⟩, priv.getD 0)) := by
  intro query priv addr
  constructor
  · intro h
    unfold joinExistingContract
    rw [h]
  · intro v h
    unfold joinExistingContract
    rw [h]
    cases priv <;> rfl

/-- C6 witness: joining a nonexistent address fails with the
contract-not-found error; joining an existing address with no prior
private state succeeds, bound to that address, with the private state
freshly initialized to 0. -/
theorem join_contract_spec_witness :
    joinExistingContract (fun _ => none) none "deadbeef" =
      .error ("Contract not found at address: " ++ "deadbeef") ∧
    joinExistingContract (fun _ => some 4) none "cafe" =
      .ok (⟨"cafe", "joined_contract"⟩, (none : Option Nat).getD 0) :=
  ⟨(join_contract_spec (fun _ => none) none "deadbeef").1 rfl,
   (join_contract_spec (fun _ => some 4) none "cafe").2 4 rfl⟩

end Join

namespace Teardown

/-- C7 counterexample: in a run holding all three resources, the resources
are acquired in the order readline, container environment, wallet, but the
teardown cascade releases them in the order readline, wallet, container
environment — not the strict reverse of the acquisition order. -/
theorem teardown_not_reverse_acquisition :
    teardownOrder ⟨true, true, false, false, false⟩ =
      [Resrc.rli, Resrc.wallet, Resrc.env] ∧
    (acquisitionOrder ⟨true, true, false, false, false⟩).reverse =
      [Resrc.wallet, Resrc.env, Resrc.rli] ∧
    teardownOrder ⟨true, true, false, false, false⟩ ≠
      (acquisitionOrder ⟨true, true, false, false, false⟩).reverse := by
  decide

/-- C7 amended: at the end of every orchestration run the teardown cascade
attempts the release steps in the fixed order readline interface, then
wallet (when present), then container environment (when present) — which
is not the reverse of the acquisition order readline, environment,
wallet — attempting every step even when an earlier release throws, and a
throwing release only produces a logged event, never a propagated error
(teardown is a total function into an event list). -/
theorem teardown_best_effort :
    ∀ e : RunEnv,
      teardownOrder e =
        [Resrc.rli] ++ (if e.walletPresent then [Resrc.wallet] else [])
          ++ (if e.envPresent then [Resrc.env] else []) ∧
      (TdEvent.logged Resrc.rli ∈ teardown e ↔ e.rliCloseFails = true) ∧
      (TdEvent.logged Resrc.wallet ∈ teardown e ↔
        (e.walletPresent = true ∧ e.walletCloseFails = true)) ∧
      (TdEvent.logged Resrc.env ∈ teardown e ↔
        (e.envPresent = true ∧ e.envDownFails = true)) := by
  intro e
  obtain ⟨w, v, a, b, c⟩ := e
  cases w <;> cases v <;> cases a <;> cases b <;> cases c <;> decide

end Teardown

namespace UrlMap

theorem digitChar_isDigit {d : Nat} (h : d < 10) : (digitChar d).isDigit = true := by
  interval_cases d <;> decide

theorem natCharsAux_digits :
    ∀ (fuel n : Nat) (acc : List Char), (∀ c ∈ acc, c.isDigit = true) →
      ∀ c ∈ natCharsAux fuel n acc, c.isDigit = true := by
  intro fuel
  induction fuel with
  | zero => intro n acc hacc; exact hacc
  | succ f ih =>
    intro n acc hacc c hc
    unfold natCharsAux at hc
    split at hc
    · rcases List.mem_cons.mp hc with h | h
      · subst h
        exact digitChar_isDigit (by omega)
      · exact hacc c h
    · refine ih (n / 10) (digitChar (n % 10) :: acc) ?_ c hc
      intro d hd
      rcases List.mem_cons.mp hd with h | h
      · subst h
        exact digitChar_isDigit (Nat.mod_lt n (by omega))
      · exact hacc d h

theorem natCharsAux_ne_nil :
    ∀ (fuel n : Nat) (acc : List Char), (acc ≠ [] ∨ 0 < fuel) →
      natCharsAux fuel n acc ≠ [] := by
  intro fuel
  induction fuel with
  | zero =>
    intro n acc hd
    rcases hd with h | h
    · exact h
    · omega
  | succ f ih =>
    intro n acc _
    unfold natCharsAux
    split
    · exact List.cons_ne_nil _ _
    · exact ih (n / 10) (digitChar (n % 10) :: acc) (Or.inl (List.cons_ne_nil _ _))

theorem natChars_ne_nil (n : Nat) : natChars n ≠ [] :=
  natCharsAux_ne_nil (n + 1) n [] (Or.inr (Nat.succ_pos n))

theorem natChars_digits (n : Nat) : ∀ c ∈ natChars n, c.isDigit = true :=
  natCharsAux_digits (n + 1) n [] (by intro c hc; cases hc)

theorem exists_reverse_head {l : List Char} (h : l ≠ []) :
    ∃ c, l.reverse.head? = some c ∧ c ∈ l := by
  cases hr : l.reverse with
  | nil => exact absurd (List.reverse_eq_nil_iff.mp hr) h
  | cons c t =>
    refine ⟨c, rfl, ?_⟩
    have : c ∈ l.reverse := by rw [hr]; exact List.mem_cons_self _ _
    exact List.mem_reverse.mp this

theorem reverse_head_append {x y : List Char} {c : Char}
    (h : y.reverse.head? = some c) : (x ++ y).reverse.head? = some c := by
  rw [List.reverse_append]
  cases hy : y.reverse with
  | nil => rw [hy] at h; cases h
  | cons d t =>
    rw [hy] at h
    simpa using h

theorem dropWhile_append_head (p : Char → Bool) (l : List Char) :
    ∀ (ar : List Char) (c : Char), ar.head? = some c → p c = false →
      List.dropWhile p (l ++ ar) = List.dropWhile p l ++ ar := by
  induction l with
  | nil =>
    intro ar c hh hp
    cases ar with
    | nil => cases hh
    | cons d t =>
      simp only [List.head?] at hh
      cases hh
      simp [List.dropWhile, hp]
  | cons x xs ih =>
    intro ar c hh hp
    simp only [List.cons_append, List.dropWhile]
    cases hpx : p x with
    | true => simpa [hpx] using ih ar c hh hp
    | false => simp [hpx]

theorem dropTrailing_append {a b : List Char} {c : Char}
    (h : a.reverse.head? = some c) (hc : ¬ c = '/') :
    dropTrailing (a ++ b) = a ++ dropTrailing b := by
  unfold dropTrailing
  rw [List.reverse_append,
    dropWhile_append_head _ b.reverse a.reverse c h (decide_eq_false hc),
    List.reverse_append, List.reverse_reverse]

theorem head?_dropWhile (p : Char → Bool) :
    ∀ (m : List Char) (c : Char), (List.dropWhile p m).head? = some c → p c = false := by
  intro m
  induction m with
  | nil => intro c h; cases h
  | cons x xs ih =>
    intro c h
    simp only [List.dropWhile] at h
    cases hpx : p x with
    | true =>
      rw [hpx] at h
      exact ih c h
    | false =>
      rw [hpx] at h
      simp only [List.head?] at h
      cases h
      exact hpx

theorem getLast?_dropTrailing {l : List Char} {c : Char}
    (h : (dropTrailing l).getLast? = some c) : ¬ c = '/' := by
  unfold dropTrailing at h
  rw [List.getLast?_reverse] at h
  exact of_decide_eq_false (head?_dropWhile _ l.reverse c h)

/-- C8 amended: for every endpoint URL and mapped port, `mapContainerPort`
returns the serialization with the same scheme and host, the port replaced
by the mapped port, and the path preserved except that its trailing
slashes are trimmed; the returned endpoint string never ends with a
slash. -/
theorem mapContainerPort_spec :
    ∀ (u : Url) (p : Nat),
      mapContainerPort u p =
        ⟨u.scheme.data ++ "://".data ++ u.host.data ++ ":".data ++ natChars p
          ++ dropTrailing u.path.data⟩ ∧
      (∀ c, (mapContainerPort u p).data.getLast? = some c → ¬ c = '/') := by
  intro u p
  obtain ⟨d, hd, hdm⟩ := exists_reverse_head (natChars_ne_nil p)
  have hdig : d.isDigit = true := natChars_digits p d hdm
  have hnd : ¬ d = '/' := by
    intro he
    rw [he] at hdig
    cases hdig
  have hassoc : urlChars ⟨u.scheme, u.host, p, u.path⟩ =
      (u.scheme.data ++ ("://".data ++ (u.host.data ++ (":".data ++ natChars p))))
        ++ u.path.data := by
    unfold urlChars
    simp [List.append_assoc]
  have hahead :
      (u.scheme.data ++ ("://".data ++ (u.host.data ++ (":".data ++ natChars p)))).reverse.head?
        = some d := by
    apply reverse_head_append
    apply reverse_head_append
    apply reverse_head_append
    apply reverse_head_append
    exact hd
  constructor
  · unfold mapContainerPort
    congr 1
    rw [hassoc, dropTrailing_append hahead hnd]
    simp [List.append_assoc]
  · intro c hcl
    exact getLast?_dropTrailing hcl

/-- C8 counterexample: on the input URL `http://h:1/a/` with mapped port 9
the source returns `http://h:9/a`, which differs from the
port-replaced serialization that keeps the input path `/a/` — the path is
not preserved verbatim, its trailing slash is trimmed. -/
theorem mapContainerPort_path_not_preserved :
    mapContainerPort ⟨"http", "h", 1, "/a/"⟩ 9 = "http://h:9/a" ∧
    (⟨urlChars ⟨"http", "h", 9, "/a/"⟩⟩ : String) = "http://h:9/a/" ∧
    mapContainerPort ⟨"http", "h", 1, "/a/"⟩ 9 ≠
      (⟨urlChars ⟨"http", "h", 9, "/a/"⟩⟩ : String) := by
  decide

/-- C8 witness: the remapped standalone indexer endpoint
`http://127.0.0.1:8088/` with mapped port 9944 ends in the digit `4`, not
in a slash. -/
theorem mapContainerPort_spec_witness :
    (mapContainerPort ⟨"http", "127.0.0.1", 8088, "/"⟩ 9944).data.getLast? = some '4' ∧
    ¬ ('4' = '/') :=
  ⟨by decide,
   (mapContainerPort_spec ⟨"http", "127.0.0.1", 8088, "/"⟩ 9944).2 '4' (by decide)⟩

end UrlMap

namespace TxPipeline

/-- C9: for every transaction and coin list, the provider pipeline calls
the authority exactly three times, in the order balance, prove, submit,
each call's argument being the previous call's output — the balanced
transaction is proved, the proved balanced transaction is submitted. -/
theorem balanceAndSubmit_ordered :
    ∀ (t : Tx) (coins : List Nat),
      balanceAndSubmit t coins =
        ("txId",
          [WalletCall.balance t,
           WalletCall.prove (Tx.balanced t coins),
           WalletCall.submit (Tx.proved (Tx.balanced t coins))]) := by
  intro t coins
  rfl

end TxPipeline
